import Mathlib

/-!
Verification of the natural-language specification of `rust-db-copier`
against a shallow embedding of its source code.

The embedding works over `List Char` / `String` (in this toolchain a
`String` wraps a `List Char`).  Rust's byte-indexed `str` operations are
modelled at character granularity, which coincides with the byte view on
the ASCII data handled by the program.  Rust's `str::replace`,
`str::contains`, `str::find` and `str::trim` are modelled by the
executable functions below; `regex` matching is modelled for the two
concrete patterns the program compiles.
-/

namespace DbCopier

/-- Error kinds used by the processor modules
(`CustomError::QueryExecution`, `CommandExecution`, ... in the source). -/
inductive CustomError where
  | QueryExecution
  | DbTableStructure
  | DbConnection
  | CommandExecution
deriving DecidableEq, Repr

/-- Boolean prefix test on character lists (Rust `str::starts_with`). -/
def isPrefOf : List Char → List Char → Bool
  | [], _ => true
  | _ :: _, [] => false
  | a :: as, b :: bs => a == b && isPrefOf as bs

/-- Substring occurrence test (Rust `str::contains`), pattern first. -/
def containsSub (pat : List Char) : List Char → Bool
  | [] => pat.isEmpty
  | c :: cs => isPrefOf pat (c :: cs) || containsSub pat cs

/-- Index of the first occurrence of `pat` (Rust `str::find`). -/
def findSub (pat : List Char) : List Char → Option Nat
  | [] => if pat.isEmpty then some 0 else none
  | c :: cs =>
    if isPrefOf pat (c :: cs) then some 0
    else (findSub pat cs).map (· + 1)

/-- Worker for Rust `str::replace`: scans left to right, replacing
non-overlapping occurrences of `pat` by `rep`.  The fuel argument (the
input length at the top call) only makes the recursion structural; one
unit is spent per character scanned or occurrence replaced. -/
def replaceGo (pat rep : List Char) : Nat → List Char → List Char
  | _, [] => []
  | 0, l => l
  | fuel + 1, c :: cs =>
    if isPrefOf pat (c :: cs) then
      rep ++ replaceGo pat rep fuel ((c :: cs).drop pat.length)
    else
      c :: replaceGo pat rep fuel cs

/-- Rust `s.replace(pat, rep)`.  All patterns the program passes are
non-empty string literals or contain a `.`, so the empty-pattern corner
of Rust's semantics is irrelevant here. -/
def rustReplace (s pat rep : String) : String :=
  String.mk (replaceGo pat.data rep.data s.data.length s.data)

/-- Rust `s.contains(pat)` on `String`s. -/
def containsStr (s pat : String) : Bool :=
  containsSub pat.data s.data

/-- Rust `str::trim` (whitespace stripped from both ends). -/
def trimChars (l : List Char) : List Char :=
  ((l.dropWhile Char.isWhitespace).reverse.dropWhile Char.isWhitespace).reverse

theorem replaceGo_nil (pat rep : List Char) (fuel : Nat) :
    replaceGo pat rep fuel [] = [] := by
  cases fuel <;> rfl

theorem containsSub_cons_false {pat : List Char} {c : Char} {cs : List Char}
    (h : containsSub pat (c :: cs) = false) :
    isPrefOf pat (c :: cs) = false ∧ containsSub pat cs = false := by
  simpa [containsSub, Bool.or_eq_false_iff] using h

theorem replaceGo_of_not_contains (pat rep : List Char) :
    ∀ (fuel : Nat) (l : List Char), l.length ≤ fuel →
      containsSub pat l = false → replaceGo pat rep fuel l = l := by
  intro fuel
  induction fuel with
  | zero =>
    intro l hlen _
    cases l with
    | nil => rfl
    | cons c cs => simp at hlen
  | succ n ih =>
    intro l hlen hocc
    cases l with
    | nil => rfl
    | cons c cs =>
      obtain ⟨hpre, htail⟩ := containsSub_cons_false hocc
      simp only [replaceGo, hpre, Bool.false_eq_true, if_false]
      have : cs.length ≤ n := by
        simpa [Nat.succ_le_succ_iff] using hlen
      rw [ih cs this htail]

theorem rustReplace_of_not_contains {s pat : String} (rep : String)
    (h : containsStr s pat = false) : rustReplace s pat rep = s := by
  obtain ⟨l⟩ := s
  unfold rustReplace
  rw [replaceGo_of_not_contains pat.data rep.data l.length l (Nat.le_refl _) h]

/-! DDL Rewriter (`src/psql_processor/table_migrator.rs`). -/

/-- The fixed built-in type list of `clean_type_references`
(table_migrator.rs, lines 635-667), in source order. -/
def builtInTypes : List String :=
  ["text", "varchar", "character varying", "bigint", "integer", "int4",
   "int8", "jsonb", "timestamp", "boolean", "bool", "date", "time",
   "uuid", "numeric", "double precision", "real", "smallint", "interval",
   "bytea", "inet", "cidr", "macaddr", "money", "point", "line", "lseg",
   "box", "path", "polygon", "circle"]

/-- `TableMigrator::clean_type_references`: for each built-in type `t`,
replace `"<target_schema>.t"` by `t`, folding over the type list in
source order. -/
def cleanTypeReferences (targetSchema ddl : String) : String :=
  builtInTypes.foldl
    (fun acc t => rustReplace acc (targetSchema ++ "." ++ t) t) ddl

/-- `TableMigrator::prepare_ddl` (table_migrator.rs, lines 222-228):
when the source schema is `public`, replace every `"public."` by
`"<target_schema>."`. -/
def prepareDdl (targetSchema schema ddl : String) : String :=
  if schema == "public" then
    rustReplace ddl "public." (targetSchema ++ ".")
  else
    ddl

/-- `TableMigrator::prepare_table_ddl` (table_migrator.rs, lines
117-124): schema rewrite followed by built-in type cleanup. -/
def prepareTableDdl (targetSchema schema ddl : String) : String :=
  cleanTypeReferences targetSchema
    (if schema == "public" then
      rustReplace ddl "public." (targetSchema ++ ".")
    else ddl)

theorem foldl_rustReplace_fixed (tgt : String) :
    ∀ (ts : List String) (s : String),
      (∀ t ∈ ts, containsStr s (tgt ++ "." ++ t) = false) →
      ts.foldl (fun acc t => rustReplace acc (tgt ++ "." ++ t) t) s = s := by
  intro ts
  induction ts with
  | nil => intro s _; rfl
  | cons t rest ih =>
    intro s h
    rw [List.foldl_cons,
        rustReplace_of_not_contains t (h t (List.mem_cons_self t rest))]
    exact ih s (fun u hu => h u (List.mem_cons_of_mem t hu))

/-- C2 counterexample: the DDL Rewriter is not idempotent as claimed.
With target schema `a`, one application of `clean_type_references` maps
`"a.a.text"` to `"a.text"` (the replacement of `"a.text"` by `"text"`
recreates the pattern), and a second application maps that to `"text"`. -/
theorem c2_clean_not_idempotent :
    cleanTypeReferences "a" (cleanTypeReferences "a" "a.a.text") ≠
      cleanTypeReferences "a" "a.a.text" := by
  decide

/-- C2 (amended): `clean_type_references` is idempotent on every input
whose cleaned form contains no remaining `<target_schema>.<type>`
occurrence for any built-in type, and — when the source schema is
`public` — the schema rewrite of `prepare_ddl` is idempotent on every
input whose rewritten form contains no remaining `"public."` occurrence.
(Unconditional idempotency fails: see the counterexample.) -/
theorem c2_rewriter_idempotent_when_cleaned :
    (∀ tgt x : String,
      builtInTypes.all
        (fun t => !containsStr (cleanTypeReferences tgt x) (tgt ++ "." ++ t)) = true →
      cleanTypeReferences tgt (cleanTypeReferences tgt x) =
        cleanTypeReferences tgt x)
    ∧ (∀ tgt x : String,
      (!containsStr (prepareDdl tgt "public" x) "public.") = true →
      prepareDdl tgt "public" (prepareDdl tgt "public" x) =
        prepareDdl tgt "public" x) := by
  constructor
  · intro tgt x h
    rw [List.all_eq_true] at h
    apply foldl_rustReplace_fixed
    intro t ht
    have := h t ht
    simpa using this
  · intro tgt x h
    show prepareDdl tgt "public" (prepareDdl tgt "public" x) = _
    unfold prepareDdl
    simp only [beq_self_eq_true, if_true]
    exact rustReplace_of_not_contains _ (by simpa using h)

/-- C2 witness: the amended theorem applied at concrete inputs; both
side conditions hold there and both equations evaluate. -/
theorem c2_rewriter_idempotent_witness :
    cleanTypeReferences "app" (cleanTypeReferences "app" "app.text col") =
      cleanTypeReferences "app" "app.text col"
    ∧ prepareDdl "app" "public" (prepareDdl "app" "public" "public.users") =
      prepareDdl "app" "public" "public.users" :=
  ⟨c2_rewriter_idempotent_when_cleaned.1 "app" "app.text col" (by decide),
   c2_rewriter_idempotent_when_cleaned.2 "app" "public.users" (by decide)⟩

/-! PostgreSQL Data Migrator (`src/psql_processor/data_migrator.rs`). -/

/-- A fetched row: column name to value.  `none` models SQL NULL. -/
abbrev Row := List (String × Option String)

/-- Rust `row.try_get(name).unwrap_or(None)`: a missing column (the
driver error case) collapses to `None`, as the code's `unwrap_or`. -/
def rowTryGet (row : Row) (name : String) : Option String :=
  match row.lookup name with
  | some v => v
  | none => none

/-- One value of `get_values_list` (data_migrator.rs, lines 119-137):
`idx` is the position in the id-excluded column list, `rowNum` the row
position in the fetched rows. -/
def formatValue (idx : Nat) (dataType : String) (rowNum : Nat) :
    Option String → String
  | some v =>
    if dataType == "integer" || dataType == "bigint" then v
    else "'" ++ rustReplace v "'" "''" ++ "'"
  | none =>
    if idx == 0 && (dataType == "integer" || dataType == "bigint") then
      toString (rowNum + 1)
    else "NULL"

/-- `DataMigrator::get_values_list` (data_migrator.rs, lines 107-145).
Columns are `(name, data_type, is_nullable)` triples. -/
def getValuesList (rows : List Row)
    (columns : List (String × String × String)) : List String :=
  rows.enum.map (fun (rowNum, row) =>
    "(" ++ String.intercalate ", "
      (columns.enum.map (fun (idx, c) =>
        formatValue idx c.2.1 rowNum (rowTryGet row c.1))) ++ ")")

/-- The id-column exclusion of `migrate_table` (data_migrator.rs, lines
75-81): the column list handed to `get_values_list` drops every column
literally named `id`. -/
def filterIdColumns (cols : List (String × String × String)) :
    List (String × String × String) :=
  cols.filter (fun c => c.1 != "id")

/-- Claim-side formatter, following C1's words: bare digits for
`integer`/`bigint`, otherwise single-quoted with `'` doubled, NULL
becomes the literal `NULL` (the claim's null-`id` clause never applies
to an id-excluded column list). -/
def claimFormatValue (dataType : String) : Option String → String
  | some v =>
    if dataType == "integer" || dataType == "bigint" then v
    else "'" ++ rustReplace v "'" "''" ++ "'"
  | none => "NULL"

/-- Values list exactly as claim C1 states it. -/
def claimValuesList (rows : List Row)
    (columns : List (String × String × String)) : List String :=
  rows.map (fun row =>
    "(" ++ String.intercalate ", "
      (columns.map (fun c => claimFormatValue c.2.1 (rowTryGet row c.1))) ++ ")")

/-- C1 counterexample: a table whose id-excluded column list starts with
an integer column.  A NULL in that column is rendered as the row index
plus one (`"1"`), not as the literal `NULL` the claim requires. -/
theorem c1_values_counterexample :
    getValuesList [[("count", (none : Option String))]]
        (filterIdColumns [("id", "bigint", "NO"), ("count", "integer", "YES")]) ≠
      claimValuesList [[("count", (none : Option String))]]
        (filterIdColumns [("id", "bigint", "NO"), ("count", "integer", "YES")]) := by
  decide

/-- Amended per-cell rule: NULL becomes the literal `NULL`, except in
the first column of the id-excluded list when that column's declared
type is `integer` or `bigint`, where the row index plus one is
substituted; non-NULL values follow the claimed formatting. -/
def specCellValue (isFirstColumn isIntegerLike : Bool) (rowIdx : Nat) :
    Option String → String
  | none =>
    if isFirstColumn && isIntegerLike then toString (rowIdx + 1) else "NULL"
  | some s =>
    if isIntegerLike then s else "'" ++ rustReplace s "'" "''" ++ "'"

/-- Cells of one row under the amended rule, tracking the column index. -/
def specRowCells (row : Row) (rowIdx : Nat) :
    Nat → List (String × String × String) → List String
  | _, [] => []
  | colIdx, c :: rest =>
    specCellValue (colIdx == 0) (c.2.1 == "integer" || c.2.1 == "bigint")
        rowIdx (rowTryGet row c.1)
      :: specRowCells row rowIdx (colIdx + 1) rest

/-- Row tuples under the amended rule, tracking the row index. -/
def specValuesRows (columns : List (String × String × String)) :
    Nat → List Row → List String
  | _, [] => []
  | rowIdx, r :: rs =>
    ("(" ++ String.intercalate ", " (specRowCells r rowIdx 0 columns) ++ ")")
      :: specValuesRows columns (rowIdx + 1) rs

theorem formatValue_eq_specCell (idx : Nat) (dt : String) (rn : Nat)
    (v : Option String) :
    formatValue idx dt rn v =
      specCellValue (idx == 0) (dt == "integer" || dt == "bigint") rn v := by
  cases v <;> rfl

theorem enum_map_cells (row : Row) (rn : Nat) :
    ∀ (k : Nat) (cols : List (String × String × String)),
      (List.enumFrom k cols).map (fun (idx, c) =>
          formatValue idx c.2.1 rn (rowTryGet row c.1)) =
        specRowCells row rn k cols := by
  intro k cols
  induction cols generalizing k with
  | nil => rfl
  | cons c rest ih =>
    simp only [List.enumFrom_cons, List.map_cons, specRowCells]
    exact congrArg₂ List.cons
      (formatValue_eq_specCell k c.2.1 rn (rowTryGet row c.1)) (ih (k + 1))

theorem enum_map_rows (cols : List (String × String × String)) :
    ∀ (n : Nat) (rows : List Row),
      (List.enumFrom n rows).map (fun (rowNum, row) =>
          "(" ++ String.intercalate ", "
            (cols.enum.map (fun (idx, c) =>
              formatValue idx c.2.1 rowNum (rowTryGet row c.1))) ++ ")") =
        specValuesRows cols n rows := by
  intro n rows
  induction rows generalizing n with
  | nil => rfl
  | cons r rs ih =>
    simp only [List.enumFrom_cons, List.map_cons, specValuesRows]
    refine congrArg₂ _ ?_ (ih (n + 1))
    rw [show List.enum cols = List.enumFrom 0 cols from rfl,
      enum_map_cells r n 0 cols]

/-- C1 (amended): on the id-excluded column list, `get_values_list`
formats integers bare, other values single-quoted with `'` doubled, and
NULL as the literal `NULL` — except that a NULL in the first id-excluded
column of declared type `integer`/`bigint` becomes the row index plus
one.  The claim's null-`id` clause is vacuous: no column named `id`
survives the exclusion. -/
theorem c1_values_amended (rows : List Row)
    (cols : List (String × String × String)) :
    getValuesList rows (filterIdColumns cols) =
      specValuesRows (filterIdColumns cols) 0 rows
    ∧ (filterIdColumns cols).all (fun c => c.1 != "id") = true := by
  constructor
  · rw [show getValuesList rows (filterIdColumns cols) =
      (List.enumFrom 0 rows).map (fun (rowNum, row) =>
        "(" ++ String.intercalate ", "
          ((filterIdColumns cols).enum.map (fun (idx, c) =>
            formatValue idx c.2.1 rowNum (rowTryGet row c.1))) ++ ")") from rfl]
    exact enum_map_rows (filterIdColumns cols) 0 rows
  · exact List.all_eq_true.mpr (fun c hc => (List.mem_filter.mp hc).2)

/-! Constraint name extraction (`table_migrator.rs`, lines 678-735). -/

/-- Schema-prefix strip inside `extract_constraint_name`: drop up to and
including the first `.` when one is present. -/
def stripSchemaPrefix (tn : List Char) : List Char :=
  match findSub ['.'] tn with
  | some i => tn.drop (i + 1)
  | none => tn

/-- The keyword fallback body shared by the `PRIMARY KEY` /
`FOREIGN KEY` / `UNIQUE` branches: slice the table name between
`"TABLE "` and `" ADD"`, trim it, strip a schema prefix, and append the
given suffix; `"unknown_constraint"` when the slicing fails. -/
def synthFromTable (ddl : List Char) (suffix : String) : String :=
  match findSub "TABLE ".data ddl with
  | some ts =>
    match findSub " ADD".data (ddl.drop ts) with
    | some te =>
      String.mk (stripSchemaPrefix
        (trimChars ((ddl.drop (ts + 6)).take (te - 6)))) ++ suffix
    | none => "unknown_constraint"
  | none => "unknown_constraint"

/-- `TableMigrator::extract_constraint_name`.  The direct branch mirrors
the source exactly: `start` is the index of `"CONSTRAINT "`, `e` the
index of the first space of `ddl[start..]`, and the guarded slice
`ddl[start+11 .. start+e]` is returned only when `start+11 < start+e`. -/
def extractConstraintName (ddl : List Char) : String :=
  let direct : Option String :=
    match findSub "CONSTRAINT ".data ddl with
    | some start =>
      match findSub [' '] (ddl.drop start) with
      | some e =>
        if start + 11 < start + e then
          some (String.mk ((ddl.drop (start + 11)).take (e - 11)))
        else none
      | none => none
    | none => none
  match direct with
  | some s => s
  | none =>
    if containsSub "PRIMARY KEY".data ddl then synthFromTable ddl "_pk"
    else if containsSub "FOREIGN KEY".data ddl then synthFromTable ddl "_fk"
    else if containsSub "UNIQUE".data ddl then synthFromTable ddl "_unique"
    else "unknown_constraint"

theorem isPrefOf_iff_append (p : List Char) :
    ∀ l : List Char, isPrefOf p l = true ↔ ∃ t, l = p ++ t := by
  induction p with
  | nil =>
    intro l
    simp [isPrefOf]
  | cons a as ih =>
    intro l
    cases l with
    | nil =>
      simp [isPrefOf]
    | cons b bs =>
      simp only [isPrefOf, Bool.and_eq_true, beq_iff_eq, ih bs]
      constructor
      · rintro ⟨rfl, t, rfl⟩
        exact ⟨t, rfl⟩
      · rintro ⟨t, h⟩
        cases h
        exact ⟨rfl, t, rfl⟩

theorem findSub_some_pref {pat l : List Char} {i : Nat}
    (h : findSub pat l = some i) : isPrefOf pat (l.drop i) = true := by
  induction l generalizing i with
  | nil =>
    by_cases hp : pat.isEmpty
    · simp only [findSub, hp, if_true, Option.some.injEq] at h
      cases h
      cases pat with
      | nil => rfl
      | cons a as => simp [List.isEmpty] at hp
    · simp [findSub, hp] at h
  | cons c cs ih =>
    by_cases hpre : isPrefOf pat (c :: cs) = true
    · simp only [findSub, hpre, if_true, Option.some.injEq] at h
      cases h
      exact hpre
    · simp only [findSub, hpre, Bool.false_eq_true, if_false,
        Option.map_eq_some'] at h
      obtain ⟨j, hj, rfl⟩ := h
      simpa using ih hj

/-- The direct extraction branch is dead: whenever `"CONSTRAINT "`
occurs at index `start`, the first space of `ddl[start..]` is the space
inside `"CONSTRAINT "` itself, at relative index 10 — so the source's
guard `start + 11 < start + 10` can never hold. -/
theorem c3_direct_branch_dead (ddl : List Char) (start : Nat)
    (h : findSub "CONSTRAINT ".data ddl = some start) :
    findSub [' '] (ddl.drop start) = some 10 := by
  obtain ⟨t, ht⟩ := (isPrefOf_iff_append _ _).mp (findSub_some_pref h)
  rw [ht]
  rfl

/-- C3: the code never returns the declared constraint name.  At the
well-formed input `ALTER TABLE s.t ADD CONSTRAINT c_name UNIQUE (x);`
the claim requires `c_name`, but the dead direct branch falls through to
the keyword fallback, which synthesises `t_unique`. -/
theorem c3_extract_name_bug :
    extractConstraintName
        ("ALTER TABLE s.t ADD CONSTRAINT c_name UNIQUE (x);").data = "t_unique"
    ∧ ("t_unique" : String) ≠ "c_name" := by
  constructor
  · rfl
  · decide

/-! Skip-table policy (`src/psql_processor/structure_migrator.rs`,
lines 340-349).  Rust's `regex` classes `\w` and `\d` are modelled over
ASCII (`[A-Za-z0-9_]` and `[0-9]`), which coincides with the identifier
data the program handles. -/

/-- Membership in the regex class `\w` (ASCII view). -/
def isWordChar (c : Char) : Bool := c.isAlphanum || c == '_'

/-- Generic matcher for `X+_Y` shapes: some split position `i ≥ 1` has
all of `t[0..i)` in class `p`, `t[i] = '_'`, and `tailCond` holding of
the remainder `t[i+1..]`. -/
def splitUnder (p : Char → Bool) (tailCond : List Char → Bool)
    (t : List Char) : Bool :=
  (List.range t.length).any (fun i =>
    decide (1 ≤ i) && (t.take i).all p && (t.get? i == some '_')
      && tailCond (t.drop (i + 1)))

/-- Matcher for the anchored tail `\d+(_\d+)?$`. -/
def digitsTail (t : List Char) : Bool :=
  (!t.isEmpty && t.all Char.isDigit)
    || splitUnder Char.isDigit (fun r => !r.isEmpty && r.all Char.isDigit) t

/-- Whole-string match of the skip regex `^\w+_\d+(_\d+)?$` compiled by
`StructureMigrator::skip_table`. -/
def matchesSkipRe (t : List Char) : Bool :=
  splitUnder isWordChar digitsTail t

/-- `StructureMigrator::skip_table` on the PostgreSQL path: nothing is
skipped when `copy_staging_tables` (an optional flag, defaulted to
false by `unwrap_or`) is true; otherwise skip on regex match or on
membership in the literal list `["test_tab"]`. -/
def psqlSkipTable (copyStagingTables : Option Bool) (tableName : String) : Bool :=
  if copyStagingTables.getD false then false
  else matchesSkipRe tableName.data || (["test_tab"] : List String).contains tableName

/-- Declarative reading of the regex `^\w+_\d+(_\d+)?$`: the name splits
as a non-empty `\w` block, an underscore, a non-empty digit block, and
optionally one more underscore and non-empty digit block. -/
def SkipRegexMatches (n : String) : Prop :=
  ∃ a b, n.data = a ++ '_' :: b ∧ a ≠ [] ∧ (∀ c ∈ a, isWordChar c = true)
    ∧ ((b ≠ [] ∧ ∀ c ∈ b, c.isDigit = true)
      ∨ ∃ d e, b = d ++ '_' :: e ∧ d ≠ [] ∧ e ≠ []
          ∧ (∀ c ∈ d, c.isDigit = true) ∧ (∀ c ∈ e, c.isDigit = true))

theorem splitUnder_iff (p : Char → Bool) (tc : List Char → Bool)
    (t : List Char) :
    splitUnder p tc t = true ↔
      ∃ a b, t = a ++ '_' :: b ∧ a ≠ [] ∧ (∀ c ∈ a, p c = true) ∧ tc b = true := by
  unfold splitUnder
  rw [List.any_eq_true]
  constructor
  · rintro ⟨i, hi, hcond⟩
    rw [List.mem_range] at hi
    simp only [Bool.and_eq_true, decide_eq_true_eq, beq_iff_eq,
      List.all_eq_true] at hcond
    obtain ⟨⟨⟨h1, hall⟩, hget⟩, htc⟩ := hcond
    refine ⟨t.take i, t.drop (i + 1), ?_, ?_, hall, htc⟩
    · conv_lhs => rw [← List.take_append_drop i t]
      rw [List.drop_eq_getElem_cons hi]
      have hti : t[i] = '_' := by
        rw [List.get?_eq_getElem?, List.getElem?_eq_getElem hi] at hget
        exact Option.some.inj hget
      rw [hti]
    · intro hnil
      have hlen := congrArg List.length hnil
      rw [List.length_take] at hlen
      simp only [List.length_nil] at hlen
      omega
  · rintro ⟨a, b, rfl, hne, hall, htc⟩
    have h1 : 1 ≤ a.length := by
      cases a with
      | nil => exact absurd rfl hne
      | cons x xs => simp
    refine ⟨a.length, ?_, ?_⟩
    · rw [List.mem_range, List.length_append, List.length_cons]
      omega
    · have htake : (a ++ '_' :: b).take a.length = a := List.take_left a _
      have hget : (a ++ '_' :: b).get? a.length = some '_' := by
        rw [List.get?_eq_getElem?, List.getElem?_append_right (Nat.le_refl _)]
        simp
      have hdrop : (a ++ '_' :: b).drop (a.length + 1) = b := by
        rw [show a ++ '_' :: b = (a ++ ['_']) ++ b by simp,
          List.drop_left' (by simp)]
      rw [Bool.and_eq_true, Bool.and_eq_true, Bool.and_eq_true]
      refine ⟨⟨⟨decide_eq_true h1, ?_⟩, ?_⟩, ?_⟩
      · rw [htake]
        exact List.all_eq_true.mpr hall
      · rw [hget]
        rfl
      · rw [hdrop]
        exact htc

theorem nonempty_all_digits_iff (t : List Char) :
    (!t.isEmpty && t.all Char.isDigit) = true ↔
      (t ≠ [] ∧ ∀ c ∈ t, c.isDigit = true) := by
  cases t with
  | nil => simp
  | cons c cs => simp [List.all_eq_true]

theorem digitsTail_iff (t : List Char) :
    digitsTail t = true ↔
      ((t ≠ [] ∧ ∀ c ∈ t, c.isDigit = true)
        ∨ ∃ d e, t = d ++ '_' :: e ∧ d ≠ [] ∧ e ≠ []
            ∧ (∀ c ∈ d, c.isDigit = true) ∧ (∀ c ∈ e, c.isDigit = true)) := by
  unfold digitsTail
  rw [Bool.or_eq_true, splitUnder_iff, nonempty_all_digits_iff]
  constructor
  · rintro (h | ⟨d, e, rfl, hd, hdall, he⟩)
    · exact Or.inl h
    · obtain ⟨hene, heall⟩ := (nonempty_all_digits_iff e).mp he
      exact Or.inr ⟨d, e, rfl, hd, hene, hdall, heall⟩
  · rintro (h | ⟨d, e, rfl, hd, he, hdall, heall⟩)
    · exact Or.inl h
    · exact Or.inr ⟨d, e, rfl, hd, hdall,
        (nonempty_all_digits_iff e).mpr ⟨he, heall⟩⟩

/-- C4: with `copy_staging_tables = true` nothing is skipped; otherwise
a table is skipped exactly when its name is in the language of
`^\w+_\d+(_\d+)?$` or is the literal `test_tab`; in particular with the
flag false, `events_2024` and `events_2024_01` are skipped and `users`
is not. -/
theorem c4_skip_table :
    (∀ n : String, psqlSkipTable (some true) n = false)
    ∧ (∀ (fl : Option Bool) (n : String), fl ≠ some true →
        (psqlSkipTable fl n = true ↔ (SkipRegexMatches n ∨ n = "test_tab")))
    ∧ psqlSkipTable (some false) "events_2024" = true
    ∧ psqlSkipTable (some false) "events_2024_01" = true
    ∧ psqlSkipTable (some false) "users" = false := by
  refine ⟨fun n => rfl, ?_, by decide, by decide, by decide⟩
  intro fl n hfl
  have hflag : fl.getD false = false := by
    cases fl with
    | none => rfl
    | some b =>
      cases b with
      | false => rfl
      | true => exact absurd rfl hfl
  unfold psqlSkipTable
  rw [hflag, if_neg (by simp), Bool.or_eq_true]
  unfold matchesSkipRe SkipRegexMatches
  rw [splitUnder_iff]
  constructor
  · rintro (⟨a, b, hsplit, hne, hall, htail⟩ | hlit)
    · exact Or.inl ⟨a, b, hsplit, hne, hall, (digitsTail_iff b).mp htail⟩
    · right
      have : n = "test_tab" := by
        simpa [List.contains_eq_any_beq] using hlit
      exact this
  · rintro (⟨a, b, hsplit, hne, hall, htail⟩ | rfl)
    · exact Or.inl ⟨a, b, hsplit, hne, hall, (digitsTail_iff b).mpr htail⟩
    · right
      simp [List.contains_eq_any_beq]

/-- C4 witness: the skip rule applied at `events_2024` with the staging
flag off; the regex-language disjunct holds there. -/
theorem c4_skip_table_witness :
    psqlSkipTable (some false) "events_2024" = true ↔
      (SkipRegexMatches "events_2024" ∨ "events_2024" = "test_tab") :=
  c4_skip_table.2.1 (some false) "events_2024" (by decide)

/-! Constraint migration (`table_migrator.rs`, lines 176-220).  The
target execution of one statement is abstracted by
`ex : String → Except String Unit`, the error value being the driver's
message string. -/

/-- Whether the execution of one (rewritten) constraint DDL is treated
as success by `migrate_constraints`: either it succeeded, or its error
message contains `"already exists"`. -/
def constraintTolerated (ex : String → Except String Unit)
    (tgt schema c : String) : Bool :=
  match ex (prepareDdl tgt schema c) with
  | .ok _ => true
  | .error e => containsStr e "already exists"

/-- `TableMigrator::migrate_constraints`: per constraint, rewrite with
`prepare_ddl` and execute; an `already exists` error is logged and the
loop continues; any other error returns `QueryExecution` at once.  The
first component records the statements submitted to the target, in
order. -/
def migrateConstraints (ex : String → Except String Unit)
    (tgt schema : String) : List String → List String × Except CustomError Unit
  | [] => ([], .ok ())
  | c :: cs =>
    let m := prepareDdl tgt schema c
    match ex m with
    | .ok _ =>
      let r := migrateConstraints ex tgt schema cs
      (m :: r.1, r.2)
    | .error e =>
      if containsStr e "already exists" then
        let r := migrateConstraints ex tgt schema cs
        (m :: r.1, r.2)
      else ([m], .error .QueryExecution)

/-- C5: an `already exists` execution error is treated as success and
the next constraint is attempted; any other execution error aborts
`migrate_constraints` with `QueryExecution`.  Concretely: the submitted
statements are the rewritten constraints up to and including the first
non-tolerated one, and the result is `ok` exactly when every constraint
is tolerated, `QueryExecution` otherwise. -/
theorem c5_constraints_tolerate_already_exists
    (ex : String → Except String Unit) (tgt schema : String)
    (cs : List String) :
    migrateConstraints ex tgt schema cs =
      ((cs.takeWhile (constraintTolerated ex tgt schema)).map (prepareDdl tgt schema)
        ++ (match cs.dropWhile (constraintTolerated ex tgt schema) with
            | [] => []
            | c :: _ => [prepareDdl tgt schema c]),
       if cs.all (constraintTolerated ex tgt schema) then .ok ()
       else .error .QueryExecution) := by
  induction cs with
  | nil => rfl
  | cons c rest ih =>
    by_cases htol : constraintTolerated ex tgt schema c = true
    · rw [List.takeWhile_cons_of_pos htol, List.dropWhile_cons_of_pos htol,
        List.all_cons, htol, Bool.true_and, List.map_cons, List.cons_append]
      unfold migrateConstraints
      unfold constraintTolerated at htol
      cases hex : ex (prepareDdl tgt schema c) with
      | ok u =>
        simp only [hex, ih]
      | error e =>
        rw [hex] at htol
        simp only at htol
        simp only [hex, htol, if_true, ih]
    · rw [Bool.not_eq_true] at htol
      rw [List.takeWhile_cons_of_neg (by simp [htol]),
        List.dropWhile_cons_of_neg (by simp [htol]),
        List.all_cons, htol, Bool.false_and, if_neg (by simp),
        List.map_nil, List.nil_append]
      unfold migrateConstraints
      unfold constraintTolerated at htol
      cases hex : ex (prepareDdl tgt schema c) with
      | ok u =>
        rw [hex] at htol
        simp only at htol
        exact Bool.noConfusion htol
      | error e =>
        rw [hex] at htol
        simp only at htol
        simp only [hex, htol, Bool.false_eq_true, if_false]

/-! pg_dump structure migration
(`structure_migrator.rs`, lines 63-104 and `pg_dump_migrator.rs`,
lines 113-169).  The subprocess outcome is `none` when the spawn
itself failed, otherwise the captured exit status and stderr. -/

/-- Captured output of the `zsh -c "pg_dump ... | psql ..."` pipeline. -/
structure CmdOutput where
  success : Bool
  stderr : String
deriving DecidableEq, Repr

/-- `StructureMigrator::migrate_with_pg_dump`: spawn failure, non-zero
exit, and non-empty stderr each return `CommandExecution`. -/
def migrateWithPgDump (spawn : Option CmdOutput) : Except CustomError Unit :=
  match spawn with
  | none => .error .CommandExecution
  | some o =>
    if !o.success then .error .CommandExecution
    else if !o.stderr.isEmpty then .error .CommandExecution
    else .ok ()

/-- `PgDumpMigrator::migrate_structure`: recreate the target schema,
then run the pipeline.  Spawn failure and non-zero exit return
`CommandExecution`; a non-empty stderr under a zero exit status is only
logged (the source has no early return there) and the function returns
`Ok`. -/
def pgDumpMigrateStructure (recreateRes : Except CustomError Unit)
    (spawn : Option CmdOutput) : Except CustomError Unit :=
  match recreateRes with
  | .error e => .error e
  | .ok _ =>
    match spawn with
    | none => .error .CommandExecution
    | some o =>
      if !o.success then .error .CommandExecution
      else .ok ()

/-- C6 counterexample: on the pg_dump-driven structure path actually
dispatched by `Migrator::migrate_structure` (`PgDumpMigrator::
migrate_structure`), a pipeline that exits zero but writes to stderr
does NOT produce the claimed `CommandExecution` error — the run returns
`Ok`. -/
theorem c6_stderr_only_not_error :
    pgDumpMigrateStructure (.ok ()) (some ⟨true, "pg_dump: warning"⟩) = .ok ()
    ∧ (Except.ok () : Except CustomError Unit) ≠ .error .CommandExecution :=
  ⟨rfl, fun h => Except.noConfusion h⟩

/-- C6 (amended): both pg_dump drivers return `CommandExecution` on
spawn failure and on non-zero exit; `StructureMigrator::
migrate_with_pg_dump` additionally errors on any stderr output, while
`PgDumpMigrator::migrate_structure` (the variant reachable from the
dispatcher) merely logs stderr when the exit status is zero and
succeeds. -/
theorem c6_pg_dump_error_conditions :
    migrateWithPgDump none = .error .CommandExecution
    ∧ (∀ o : CmdOutput, migrateWithPgDump (some o) =
        (if o.success && o.stderr.isEmpty then .ok ()
         else .error .CommandExecution))
    ∧ pgDumpMigrateStructure (.ok ()) none = .error .CommandExecution
    ∧ (∀ o : CmdOutput, pgDumpMigrateStructure (.ok ()) (some o) =
        (if o.success then .ok () else .error .CommandExecution)) := by
  refine ⟨rfl, ?_, rfl, ?_⟩
  · intro o
    cases o with
    | mk s e =>
      cases s <;> cases he : e.isEmpty <;>
        simp [migrateWithPgDump, he]
  · intro o
    cases o with
    | mk s e =>
      cases s <;> simp [pgDumpMigrateStructure]

/-! Per-table phase ordering (`table_migrator.rs`, lines 32-54).  The
five sub-operations of `TableMigrator::migrate` are abstracted by their
outcomes `r : Phase → Except CustomError Unit`. -/

/-- The five per-table migration phases, in source order. -/
inductive Phase where
  | sequences
  | tableBody
  | partitions
  | indexes
  | constraints
deriving DecidableEq, Repr

/-- Source position of each phase in `TableMigrator::migrate`. -/
def phaseIdx : Phase → Nat
  | .sequences => 0
  | .tableBody => 1
  | .partitions => 2
  | .indexes => 3
  | .constraints => 4

/-- The fixed phase order of `TableMigrator::migrate`. -/
def phaseOrder : List Phase :=
  [.sequences, .tableBody, .partitions, .indexes, .constraints]

/-- Whether a phase outcome is a success. -/
def phaseOk (r : Phase → Except CustomError Unit) (p : Phase) : Bool :=
  match r p with
  | .ok _ => true
  | .error _ => false

/-- `TableMigrator::migrate`: the `?`-chain over the five phases. -/
def tableMigrate (r : Phase → Except CustomError Unit) :
    Except CustomError Unit :=
  match r .sequences with
  | .error e => .error e
  | .ok _ =>
    match r .tableBody with
    | .error e => .error e
    | .ok _ =>
      match r .partitions with
      | .error e => .error e
      | .ok _ =>
        match r .indexes with
        | .error e => .error e
        | .ok _ =>
          match r .constraints with
          | .error e => .error e
          | .ok _ => .ok ()

/-- The phases `TableMigrator::migrate` starts, in execution order: each
phase is entered only after the previous one returned `Ok`. -/
def tableMigrateTrace (r : Phase → Except CustomError Unit) : List Phase :=
  Phase.sequences ::
    match r .sequences with
    | .error _ => []
    | .ok _ =>
      Phase.tableBody ::
        match r .tableBody with
        | .error _ => []
        | .ok _ =>
          Phase.partitions ::
            match r .partitions with
            | .error _ => []
            | .ok _ =>
              Phase.indexes ::
                match r .indexes with
                | .error _ => []
                | .ok _ => [Phase.constraints]

/-- C8: the five phases run in the fixed order sequences, table body,
partitions, indexes, constraints; a phase is started only when every
earlier phase completed successfully; the started phases are exactly the
successful prefix of the order plus the first failing phase, and the
result is that first failure (or `Ok` when all five succeed). -/
theorem c8_phase_order (r : Phase → Except CustomError Unit) :
    tableMigrateTrace r =
      phaseOrder.takeWhile (phaseOk r)
        ++ (match phaseOrder.dropWhile (phaseOk r) with
            | [] => []
            | p :: _ => [p])
    ∧ tableMigrate r =
      (match phaseOrder.dropWhile (phaseOk r) with
       | [] => .ok ()
       | p :: _ => r p)
    ∧ (∀ p ∈ tableMigrateTrace r, ∀ q : Phase,
        phaseIdx q < phaseIdx p → r q = .ok ()) := by
  have hunit : ∀ p (u : Unit), r p = Except.ok u → r p = Except.ok () := by
    intro p u h
    cases u
    exact h
  cases h1 : r .sequences with
  | error e1 =>
    refine ⟨by simp [tableMigrateTrace, phaseOrder, phaseOk, h1], ?_, ?_⟩
    · simp [tableMigrate, phaseOrder, phaseOk, h1]
    · intro p hp q hq
      simp only [tableMigrateTrace, h1, List.mem_singleton] at hp
      subst hp
      simp [phaseIdx] at hq
  | ok u1 =>
    replace h1 := hunit _ u1 h1
    cases h2 : r .tableBody with
    | error e2 =>
      refine ⟨by simp [tableMigrateTrace, phaseOrder, phaseOk, h1, h2], ?_, ?_⟩
      · simp [tableMigrate, phaseOrder, phaseOk, h1, h2]
      · intro p hp q hq
        simp only [tableMigrateTrace, h1, h2, List.mem_cons,
          List.mem_singleton, List.not_mem_nil, or_false] at hp
        rcases hp with rfl | rfl <;> cases q <;>
          simp_all [phaseIdx]
    | ok u2 =>
      replace h2 := hunit _ u2 h2
      cases h3 : r .partitions with
      | error e3 =>
        refine ⟨by simp [tableMigrateTrace, phaseOrder, phaseOk, h1, h2, h3],
          ?_, ?_⟩
        · simp [tableMigrate, phaseOrder, phaseOk, h1, h2, h3]
        · intro p hp q hq
          simp only [tableMigrateTrace, h1, h2, h3, List.mem_cons,
            List.mem_singleton, List.not_mem_nil, or_false] at hp
          rcases hp with rfl | rfl | rfl <;> cases q <;>
            simp_all [phaseIdx]
      | ok u3 =>
        replace h3 := hunit _ u3 h3
        cases h4 : r .indexes with
        | error e4 =>
          refine ⟨by simp [tableMigrateTrace, phaseOrder, phaseOk, h1, h2, h3, h4],
            ?_, ?_⟩
          · simp [tableMigrate, phaseOrder, phaseOk, h1, h2, h3, h4]
          · intro p hp q hq
            simp only [tableMigrateTrace, h1, h2, h3, h4, List.mem_cons,
              List.mem_singleton, List.not_mem_nil, or_false] at hp
            rcases hp with rfl | rfl | rfl | rfl <;> cases q <;>
              simp_all [phaseIdx]
        | ok u4 =>
          replace h4 := hunit _ u4 h4
          cases h5 : r .constraints with
          | error e5 =>
            refine ⟨by simp [tableMigrateTrace, phaseOrder, phaseOk,
              h1, h2, h3, h4, h5], ?_, ?_⟩
            · simp [tableMigrate, phaseOrder, phaseOk, h1, h2, h3, h4, h5]
            · intro p hp q hq
              simp only [tableMigrateTrace, h1, h2, h3, h4, h5, List.mem_cons,
                List.mem_singleton, List.not_mem_nil, or_false] at hp
              rcases hp with rfl | rfl | rfl | rfl | rfl <;> cases q <;>
                simp_all [phaseIdx]
          | ok u5 =>
            replace h5 := hunit _ u5 h5
            refine ⟨by simp [tableMigrateTrace, phaseOrder, phaseOk,
              h1, h2, h3, h4, h5], ?_, ?_⟩
            · simp [tableMigrate, phaseOrder, phaseOk, h1, h2, h3, h4, h5]
            · intro p hp q hq
              simp only [tableMigrateTrace, h1, h2, h3, h4, h5, List.mem_cons,
                List.mem_singleton, List.not_mem_nil, or_false] at hp
              rcases hp with rfl | rfl | rfl | rfl | rfl <;> cases q <;>
                simp_all [phaseIdx]

/-- C8 witness: the theorem applied to a run whose partitions phase
fails; the table-body phase appears in the trace with every earlier
phase successful. -/
theorem c8_phase_order_witness :
    (fun p => match p with
      | Phase.partitions => Except.error CustomError.QueryExecution
      | _ => Except.ok ()) Phase.sequences = Except.ok () :=
  (c8_phase_order (fun p => match p with
      | Phase.partitions => Except.error CustomError.QueryExecution
      | _ => Except.ok ())).2.2
    Phase.tableBody (by decide) Phase.sequences (by decide)

/-! PostgreSQL structure migration driver
(`structure_migrator.rs`, lines 237-332). -/

/-- A table row of `list_all_tables` (schema and name; the partition
fields play no role in the loop). -/
structure TableInfo where
  schema : String
  table_name : String
deriving DecidableEq, Repr

/-- An enum row of `list_all_enums`. -/
structure EnumInfo where
  schema : String
  enum_name : String
  enum_values : List String
deriving DecidableEq, Repr

/-- The accumulated `success` / `failures` / `skipped` lists of the
table loop, in push order. -/
structure Report where
  success : List TableInfo
  failures : List TableInfo
  skipped : List TableInfo
deriving DecidableEq, Repr

/-- Success test on a unit-valued result (Rust `Result::is_err`
negated). -/
def isOkRes : Except CustomError Unit → Bool
  | .ok _ => true
  | .error _ => false

/-- Run a fallible step over each element, aborting at the first error
(the `for … { step?; }` shape of the enum loop). -/
def runAll {α : Type} (f : α → Except CustomError Unit) :
    List α → Except CustomError Unit
  | [] => .ok ()
  | x :: xs =>
    match f x with
    | .ok _ => runAll f xs
    | .error e => .error e

/-- The table loop of `StructureMigrator::migrate`: tables in other
schemas are passed over silently; skipped tables are recorded; otherwise
the table migrator runs and the table is pushed to `success` or to
`failures` — the loop always continues. -/
def tableLoop (srcSchema : String) (skip : String → Bool)
    (tmRes : TableInfo → Except CustomError Unit) :
    List TableInfo → Report → Report
  | [], rep => rep
  | t :: ts, rep =>
    if t.schema != srcSchema then
      tableLoop srcSchema skip tmRes ts rep
    else if skip t.table_name then
      tableLoop srcSchema skip tmRes ts
        { rep with skipped := rep.skipped ++ [t] }
    else
      match tmRes t with
      | .ok _ =>
        tableLoop srcSchema skip tmRes ts
          { rep with success := rep.success ++ [t] }
      | .error _ =>
        tableLoop srcSchema skip tmRes ts
          { rep with failures := rep.failures ++ [t] }

/-- `StructureMigrator::migrate`, with every database interaction
abstracted by its outcome: the pg_dump shortcut, schema recreation, the
enum listing and per-enum creation, the table listing, the table
migrator construction, and the per-table migration result.  The `ok`
value carries the report the run logs at the end. -/
def structureMigrate (usePgDump : Bool)
    (pgDumpRes : Except CustomError Unit)
    (recreateRes : Except CustomError Unit)
    (enumsRes : Except CustomError (List EnumInfo))
    (createEnumRes : EnumInfo → Except CustomError Unit)
    (tablesRes : Except CustomError (List TableInfo))
    (tmInitRes : Except CustomError Unit)
    (tmRes : TableInfo → Except CustomError Unit)
    (srcSchema : String) (skip : String → Bool) :
    Except CustomError Report :=
  if usePgDump then
    match pgDumpRes with
    | .error e => .error e
    | .ok _ => .ok ⟨[], [], []⟩
  else
    match recreateRes with
    | .error e => .error e
    | .ok _ =>
      match enumsRes with
      | .error e => .error e
      | .ok enums =>
        match runAll createEnumRes enums with
        | .error e => .error e
        | .ok _ =>
          match tablesRes with
          | .error e => .error e
          | .ok tables =>
            match tmInitRes with
            | .error e => .error e
            | .ok _ =>
              .ok (tableLoop srcSchema skip tmRes tables ⟨[], [], []⟩)

theorem tableLoop_spec (srcSchema : String) (skip : String → Bool)
    (tmRes : TableInfo → Except CustomError Unit) :
    ∀ (ts : List TableInfo) (rep : Report),
      tableLoop srcSchema skip tmRes ts rep =
        { success := rep.success ++ ts.filter (fun t =>
            t.schema == srcSchema && !skip t.table_name && isOkRes (tmRes t)),
          failures := rep.failures ++ ts.filter (fun t =>
            t.schema == srcSchema && !skip t.table_name && !isOkRes (tmRes t)),
          skipped := rep.skipped ++ ts.filter (fun t =>
            t.schema == srcSchema && skip t.table_name) } := by
  intro ts
  induction ts with
  | nil =>
    intro rep
    simp [tableLoop]
  | cons t rest ih =>
    intro rep
    by_cases hs : t.schema = srcSchema
    · by_cases hsk : skip t.table_name = true
      · rw [show tableLoop srcSchema skip tmRes (t :: rest) rep =
          tableLoop srcSchema skip tmRes rest
            { rep with skipped := rep.skipped ++ [t] } by
            simp [tableLoop, hs, hsk]]
        rw [ih]
        simp [List.filter_cons, hs, hsk]
      · rw [Bool.not_eq_true] at hsk
        cases htm : tmRes t with
        | ok u =>
          rw [show tableLoop srcSchema skip tmRes (t :: rest) rep =
            tableLoop srcSchema skip tmRes rest
              { rep with success := rep.success ++ [t] } by
              simp [tableLoop, hs, hsk, htm]]
          rw [ih]
          simp [List.filter_cons, hs, hsk, isOkRes, htm]
        | error e =>
          rw [show tableLoop srcSchema skip tmRes (t :: rest) rep =
            tableLoop srcSchema skip tmRes rest
              { rep with failures := rep.failures ++ [t] } by
              simp [tableLoop, hs, hsk, htm]]
          rw [ih]
          simp [List.filter_cons, hs, hsk, isOkRes, htm]
    · rw [show tableLoop srcSchema skip tmRes (t :: rest) rep =
        tableLoop srcSchema skip tmRes rest rep by
          simp [tableLoop, hs]]
      rw [ih]
      simp [List.filter_cons, hs]

/-- C7: once the pre-steps succeed, every listed table of the source
schema that is not skipped is attempted; a failing table lands in the
failures list and the loop continues with the next table; the run
returns success regardless of how many tables failed. -/
theorem c7_failures_recorded_run_succeeds
    (pgDumpRes recreateRes tmInitRes : Except CustomError Unit)
    (createEnumRes : EnumInfo → Except CustomError Unit)
    (enums : List EnumInfo) (tables : List TableInfo)
    (tmRes : TableInfo → Except CustomError Unit)
    (srcSchema : String) (skip : String → Bool)
    (hrec : recreateRes = .ok ())
    (henums : runAll createEnumRes enums = .ok ())
    (hinit : tmInitRes = .ok ()) :
    structureMigrate false pgDumpRes recreateRes (.ok enums) createEnumRes
        (.ok tables) tmInitRes tmRes srcSchema skip =
      .ok { success := tables.filter (fun t =>
              t.schema == srcSchema && !skip t.table_name && isOkRes (tmRes t)),
            failures := tables.filter (fun t =>
              t.schema == srcSchema && !skip t.table_name && !isOkRes (tmRes t)),
            skipped := tables.filter (fun t =>
              t.schema == srcSchema && skip t.table_name) } := by
  subst hrec hinit
  rw [show structureMigrate false pgDumpRes (.ok ()) (.ok enums) createEnumRes
      (.ok tables) (.ok ()) tmRes srcSchema skip =
    (match runAll createEnumRes enums with
     | .error e => .error e
     | .ok _ => .ok (tableLoop srcSchema skip tmRes tables ⟨[], [], []⟩))
    from rfl, henums]
  show Except.ok (tableLoop srcSchema skip tmRes tables ⟨[], [], []⟩) = _
  rw [tableLoop_spec]
  simp

/-- C7 witness: two source-schema tables, the first failing and the
second succeeding; the run returns `ok` with the first table recorded
under failures and the second under success. -/
theorem c7_failures_recorded_witness :
    structureMigrate false (.ok ()) (.ok ()) (.ok []) (fun _ => .ok ())
        (.ok [⟨"app", "t1"⟩, ⟨"app", "t2"⟩]) (.ok ())
        (fun t => if t.table_name == "t1" then .error .QueryExecution else .ok ())
        "app" (fun _ => false) =
      .ok { success := [⟨"app", "t2"⟩], failures := [⟨"app", "t1"⟩],
            skipped := [] } := by
  rw [c7_failures_recorded_run_succeeds (.ok ()) (.ok ()) (.ok ())
    (fun _ => .ok ()) [] [⟨"app", "t1"⟩, ⟨"app", "t2"⟩]
    (fun t => if t.table_name == "t1" then .error .QueryExecution else .ok ())
    "app" (fun _ => false) rfl rfl rfl]
  simp only [Except.ok.injEq]
  decide

/-! PostgreSQL data migration driver (`data_migrator.rs`, lines 40-57). -/

/-- The failed/success accumulation of `DataMigrator::migrate`, in push
order (first component failed, second success, as in the source). -/
def dataLoop (tmRes : String → Except CustomError Unit) :
    List String → List String × List String → List String × List String
  | [], acc => acc
  | t :: ts, acc =>
    match tmRes t with
    | .error _ => dataLoop tmRes ts (acc.1 ++ [t], acc.2)
    | .ok _ => dataLoop tmRes ts (acc.1, acc.2 ++ [t])

/-- `DataMigrator::migrate`: iterate the configured `data_source`
tables, record each per-table outcome, log the two lists, and return
`Ok(())` unconditionally. -/
def dataMigrate (tmRes : String → Except CustomError Unit)
    (tables : List String) :
    (List String × List String) × Except CustomError Unit :=
  (dataLoop tmRes tables ([], []), .ok ())

theorem dataLoop_spec (tmRes : String → Except CustomError Unit) :
    ∀ (ts : List String) (acc : List String × List String),
      dataLoop tmRes ts acc =
        (acc.1 ++ ts.filter (fun t => !isOkRes (tmRes t)),
         acc.2 ++ ts.filter (fun t => isOkRes (tmRes t))) := by
  intro ts
  induction ts with
  | nil =>
    intro acc
    simp [dataLoop]
  | cons t rest ih =>
    intro acc
    cases htm : tmRes t with
    | error e =>
      rw [show dataLoop tmRes (t :: rest) acc =
        dataLoop tmRes rest (acc.1 ++ [t], acc.2) by simp [dataLoop, htm]]
      rw [ih]
      simp [List.filter_cons, isOkRes, htm]
    | ok u =>
      rw [show dataLoop tmRes (t :: rest) acc =
        dataLoop tmRes rest (acc.1, acc.2 ++ [t]) by simp [dataLoop, htm]]
      rw [ih]
      simp [List.filter_cons, isOkRes, htm]

/-- C9: the data phase's `migrate()` returns `Ok` for every outcome of
the per-table copies; failing tables are only collected into the logged
failed list (and successes into the success list), never propagated. -/
theorem c9_data_migrate_always_ok (tmRes : String → Except CustomError Unit)
    (tables : List String) :
    (dataMigrate tmRes tables).2 = .ok ()
    ∧ (dataMigrate tmRes tables).1.1 =
        tables.filter (fun t => !isOkRes (tmRes t))
    ∧ (dataMigrate tmRes tables).1.2 =
        tables.filter (fun t => isOkRes (tmRes t)) := by
  refine ⟨rfl, ?_, ?_⟩ <;>
    simp [dataMigrate, dataLoop_spec]

/-! MySQL structure migration
(`src/mysql_processor/structure_migrator.rs`, lines 79-134) and the
trait-level default skip pattern (`src/traits.rs`). -/

/-- Non-empty run of characters all in class `p` (a `X+` regex atom). -/
def nonemptyAll (p : Char → Bool) (t : List Char) : Bool :=
  !t.isEmpty && t.all p

/-- Matcher for the anchored tail `\d+(_\d+)?(_\w+)?$` of the trait
default skip regex, as the union of its four concatenation cases
`\d+`, `\d+_\d+`, `\d+_\w+` and `\d+_\d+_\w+`. -/
def traitTail (t : List Char) : Bool :=
  nonemptyAll Char.isDigit t
    || splitUnder Char.isDigit (nonemptyAll Char.isDigit) t
    || splitUnder Char.isDigit (nonemptyAll isWordChar) t
    || splitUnder Char.isDigit
        (splitUnder Char.isDigit (nonemptyAll isWordChar)) t

/-- Whole-string match of the trait-level default skip regex
`^\w+_\d+(_\d+)?(_\w+)?$` (`StructureMigratorTrait::skip_table`, which
the MySQL migrator inherits). -/
def matchesTraitSkipRe (t : List Char) : Bool :=
  splitUnder isWordChar traitTail t

/-- The MySQL path's `skip_table` (trait default). -/
def mysqlSkipTable (n : String) : Bool :=
  matchesTraitSkipRe n.data

/-- `StructureMigrator::is_private_table` on the MySQL path. -/
def mysqlIsPrivateTable (n : String) : Bool :=
  (["schema_migrations", "ar_internal_metadata"] : List String).contains n

/-- Execute a list of statements in order against the target, recording
each submitted statement and stopping at the first error (the drop
loop's `?`). -/
def execSeq (ex : String → Except CustomError Unit) :
    List String → List String × Except CustomError Unit
  | [] => ([], .ok ())
  | s :: rest =>
    match ex s with
    | .ok _ =>
      let r := execSeq ex rest
      (s :: r.1, r.2)
    | .error e => ([s], .error e)

/-- The source-table loop of the MySQL `migrate`: skipped or private
tables are recorded and passed over; otherwise the `SHOW CREATE TABLE`
DDL is fetched (`?` on failure) and executed on the target (`?` on
failure).  Returns (statements submitted to the target, skipped tables,
processed tables, result), each in source order. -/
def mysqlCreateLoop (ddlFor : String → Except CustomError String)
    (ex : String → Except CustomError Unit) :
    List String → List String × List String × List String × Except CustomError Unit
  | [] => ([], [], [], .ok ())
  | t :: ts =>
    if mysqlSkipTable t || mysqlIsPrivateTable t then
      let r := mysqlCreateLoop ddlFor ex ts
      (r.1, t :: r.2.1, r.2.2.1, r.2.2.2)
    else
      match ddlFor t with
      | .error e => ([], [], [], .error e)
      | .ok ddl =>
        match ex ddl with
        | .error e => ([ddl], [], [], .error e)
        | .ok _ =>
          let r := mysqlCreateLoop ddlFor ex ts
          (ddl :: r.1, r.2.1, t :: r.2.2.1, r.2.2.2)

/-- The MySQL `StructureMigrator::migrate`, with the database
interactions abstracted: the target/source `SHOW TABLES` results, the
per-table `SHOW CREATE TABLE` result, and the per-statement execution
outcome on the target.  The first component is the ordered list of
mutating statements submitted to the target connection: disable FK
checks, drop every target table (unfiltered), create each kept source
table, re-enable FK checks. -/
def mysqlStructureMigrate
    (targetTablesRes sourceTablesRes : Except CustomError (List String))
    (ddlFor : String → Except CustomError String)
    (ex : String → Except CustomError Unit) :
    List String × Except CustomError Unit :=
  match targetTablesRes with
  | .error e => ([], .error e)
  | .ok targetTables =>
    match ex "SET FOREIGN_KEY_CHECKS = 0" with
    | .error e => (["SET FOREIGN_KEY_CHECKS = 0"], .error e)
    | .ok _ =>
      let dropRes := execSeq ex (targetTables.map
        (fun t => "DROP TABLE IF EXISTS `" ++ t ++ "`"))
      match dropRes.2 with
      | .error e => ("SET FOREIGN_KEY_CHECKS = 0" :: dropRes.1, .error e)
      | .ok _ =>
        match sourceTablesRes with
        | .error e => ("SET FOREIGN_KEY_CHECKS = 0" :: dropRes.1, .error e)
        | .ok sourceTables =>
          let createRes := mysqlCreateLoop ddlFor ex sourceTables
          match createRes.2.2.2 with
          | .error e =>
            ("SET FOREIGN_KEY_CHECKS = 0" :: dropRes.1 ++ createRes.1, .error e)
          | .ok _ =>
            match ex "SET FOREIGN_KEY_CHECKS = 1" with
            | .error e =>
              ("SET FOREIGN_KEY_CHECKS = 0" :: dropRes.1 ++ createRes.1
                ++ ["SET FOREIGN_KEY_CHECKS = 1"], .error e)
            | .ok _ =>
              ("SET FOREIGN_KEY_CHECKS = 0" :: dropRes.1 ++ createRes.1
                ++ ["SET FOREIGN_KEY_CHECKS = 1"], .ok ())

theorem execSeq_all_ok (stmts : List String) :
    execSeq (fun _ => .ok ()) stmts = (stmts, .ok ()) := by
  induction stmts with
  | nil => rfl
  | cons s rest ih =>
    simp [execSeq, ih]

theorem mysqlCreateLoop_all_ok (ddl : String → String) :
    ∀ src : List String,
      mysqlCreateLoop (fun t => .ok (ddl t)) (fun _ => .ok ()) src =
        ((src.filter (fun t => !(mysqlSkipTable t || mysqlIsPrivateTable t))).map ddl,
         src.filter (fun t => mysqlSkipTable t || mysqlIsPrivateTable t),
         src.filter (fun t => !(mysqlSkipTable t || mysqlIsPrivateTable t)),
         .ok ()) := by
  intro src
  induction src with
  | nil => rfl
  | cons t ts ih =>
    by_cases hsk : (mysqlSkipTable t || mysqlIsPrivateTable t) = true
    · have hkeep : (t :: ts).filter
          (fun u => !(mysqlSkipTable u || mysqlIsPrivateTable u)) =
          ts.filter (fun u => !(mysqlSkipTable u || mysqlIsPrivateTable u)) := by
        rw [List.filter_cons]
        simp only [hsk, Bool.not_true, Bool.false_eq_true, if_false]
      have hskf : (t :: ts).filter
          (fun u => mysqlSkipTable u || mysqlIsPrivateTable u) =
          t :: ts.filter (fun u => mysqlSkipTable u || mysqlIsPrivateTable u) := by
        rw [List.filter_cons]
        simp only [hsk, if_true]
      rw [show mysqlCreateLoop (fun t => .ok (ddl t)) (fun _ => .ok ()) (t :: ts) =
        (let r := mysqlCreateLoop (fun t => .ok (ddl t)) (fun _ => .ok ()) ts
         (r.1, t :: r.2.1, r.2.2.1, r.2.2.2)) by
          simp [mysqlCreateLoop, hsk]]
      rw [ih, hkeep, hskf]
    · rw [Bool.not_eq_true] at hsk
      have hkeep : (t :: ts).filter
          (fun u => !(mysqlSkipTable u || mysqlIsPrivateTable u)) =
          t :: ts.filter (fun u => !(mysqlSkipTable u || mysqlIsPrivateTable u)) := by
        rw [List.filter_cons]
        simp only [hsk, Bool.not_false, if_true]
      have hskf : (t :: ts).filter
          (fun u => mysqlSkipTable u || mysqlIsPrivateTable u) =
          ts.filter (fun u => mysqlSkipTable u || mysqlIsPrivateTable u) := by
        rw [List.filter_cons]
        simp only [hsk, Bool.false_eq_true, if_false]
      rw [show mysqlCreateLoop (fun t => .ok (ddl t)) (fun _ => .ok ()) (t :: ts) =
        (let r := mysqlCreateLoop (fun t => .ok (ddl t)) (fun _ => .ok ()) ts
         (ddl t :: r.1, r.2.1, t :: r.2.2.1, r.2.2.2)) by
          simp [mysqlCreateLoop, hsk]]
      rw [ih, hkeep, hskf]
      rfl

/-- C10: on the MySQL structure path with all statements succeeding,
the statements submitted to the target are: disable FK checks, a
`DROP TABLE IF EXISTS` for every table currently in the target (no
filtering), then a `CREATE TABLE` for each non-skipped non-private
source table, then re-enable FK checks — so every target-table drop
precedes every create; every target table (including skipped/private
ones) gets a drop statement; and a skipped or private table is never
among the recreated tables. -/
theorem c10_mysql_drop_all_recreate_filtered
    (tgt src : List String) (ddl : String → String) :
    mysqlStructureMigrate (.ok tgt) (.ok src) (fun t => .ok (ddl t))
        (fun _ => .ok ()) =
      ("SET FOREIGN_KEY_CHECKS = 0"
          :: tgt.map (fun t => "DROP TABLE IF EXISTS `" ++ t ++ "`")
          ++ (src.filter
              (fun t => !(mysqlSkipTable t || mysqlIsPrivateTable t))).map ddl
          ++ ["SET FOREIGN_KEY_CHECKS = 1"],
       .ok ())
    ∧ (∀ t ∈ tgt, ("DROP TABLE IF EXISTS `" ++ t ++ "`")
        ∈ (mysqlStructureMigrate (.ok tgt) (.ok src) (fun t => .ok (ddl t))
            (fun _ => .ok ())).1)
    ∧ (∀ t : String, (mysqlSkipTable t || mysqlIsPrivateTable t) = true →
        t ∉ src.filter (fun u => !(mysqlSkipTable u || mysqlIsPrivateTable u))) := by
  have hmain : mysqlStructureMigrate (.ok tgt) (.ok src) (fun t => .ok (ddl t))
      (fun _ => .ok ()) =
    ("SET FOREIGN_KEY_CHECKS = 0"
        :: tgt.map (fun t => "DROP TABLE IF EXISTS `" ++ t ++ "`")
        ++ (src.filter
            (fun t => !(mysqlSkipTable t || mysqlIsPrivateTable t))).map ddl
        ++ ["SET FOREIGN_KEY_CHECKS = 1"],
     .ok ()) := by
    unfold mysqlStructureMigrate
    simp only [execSeq_all_ok, mysqlCreateLoop_all_ok]
  refine ⟨hmain, ?_, ?_⟩
  · intro t ht
    rw [hmain]
    exact List.mem_cons_of_mem _ (List.mem_append_left _
      (List.mem_append_left _ (List.mem_map_of_mem _ ht)))
  · intro t hsk hmem
    rw [List.mem_filter] at hmem
    rw [hsk] at hmem
    simpa using hmem.2

/-- C10 witness: a staging-named table present in both databases is
dropped from the target and excluded from the recreated set. -/
theorem c10_mysql_witness :
    ("DROP TABLE IF EXISTS `events_123`")
        ∈ (mysqlStructureMigrate (.ok ["events_123", "users"])
            (.ok ["events_123", "users"])
            (fun t => .ok ("CREATE TABLE `" ++ t ++ "` (x int)"))
            (fun _ => .ok ())).1
    ∧ "events_123" ∉ (["events_123", "users"] : List String).filter
        (fun u => !(mysqlSkipTable u || mysqlIsPrivateTable u)) :=
  ⟨(c10_mysql_drop_all_recreate_filtered ["events_123", "users"]
      ["events_123", "users"]
      (fun t => "CREATE TABLE `" ++ t ++ "` (x int)")).2.1
      "events_123" (by decide),
   (c10_mysql_drop_all_recreate_filtered ["events_123", "users"]
      ["events_123", "users"]
      (fun t => "CREATE TABLE `" ++ t ++ "` (x int)")).2.2
      "events_123" (by decide)⟩

end DbCopier
